import Mathlib

/-!
Shallow embedding of the whitesource-api-extension backend
(`whitesource_backend/component.py`, `whitesource_backend/util.py`).

The embedding models:
* the websocket session state machine `Component.on_websocket`
  (control-message decoding, chunk-size check, payload receive loop,
  outer/inner archive extraction dispatch, scan response emission);
* the path computation performed by `tarfile.extract` when the session
  extracts archive members into its scratch directory;
* the top-level inner-archive expansion loop (`.tar` detection,
  `str.replace`-based directory naming, deletion of the archive file);
* the per-entry fault handling of the inner extraction loop
  (`tarfile.StreamError` / `KeyError` caught around the whole loop);
* the shared agent-binary cache (`update_or_download_agent`,
  `pull_latest_wss_agent`).

Bytes are modelled as `Nat` values, byte strings as `List Nat`, and
Python strings as `String` or `List Char` where character-level
semantics (of `str.replace`) matter.
-/

/-! ## Receive loop (component.py lines 76-91)

`received = 0; while received < metadata.length: chunk = await
ws.receive_data(); tar_file.write(chunk); received += len(chunk)`.

The loop writes every chunk in full; it re-checks `received <
metadata.length` before requesting each next chunk.  `recvLoop` returns
the staged bytes and the number of chunks consumed, or `none` when the
connection delivers no further message while more bytes are still
expected (peer disconnect: `falcon.WebSocketDisconnected`). -/
def recvLoop (length : Nat) : List (List Nat) → List Nat → Nat → Option (List Nat × Nat)
  | [], accum, used =>
    if accum.length < length then none else some (accum, used)
  | c :: rest, accum, used =>
    if accum.length < length then recvLoop length rest (accum ++ c) (used + 1)
    else some (accum, used)

/-! ## Session data model (whitesource_common.protocol, model.ScanResult) -/

/-- `WhiteSourceApiExtensionWebsocketMetadata`: declared payload length and
chunk size. -/
structure Metadata where
  length : Nat
  chunkSize : Nat
deriving DecidableEq, Repr

/-- `WhiteSourceApiExtensionWebsocketWSConfig` (fields used by the session). -/
structure WSConfig where
  apiKey : String
  userKey : String
  wssUrl : String
  productToken : String
  projectName : String
  requesterEmail : String
deriving DecidableEq, Repr

/-- `model.ScanResult`: the structured scan response. -/
structure ScanResult where
  successful : Bool
  message : String
deriving DecidableEq, Repr

/-- `subprocess.CompletedProcess` as consumed by the session: exit code and
captured output streams (already utf-8 decoded). -/
structure ScanProc where
  returncode : Int
  stdout : String
  stderr : String
deriving DecidableEq, Repr

/-- Websocket close codes used by the session
(`WhiteSourceApiExtensionStatusCodeReasons`). -/
inductive CloseCode where
  | contractViolation
  | chunkSizeTooBig
  | binaryCorrupted
deriving DecidableEq, Repr

/-- Messages sent back to the client: `ws.send_text(str(result.returncode))`
and `ws.send_text(json.dumps(dataclasses.asdict(res)))`.  The second
constructor carries the `ScanResult` whose JSON serialization is sent. -/
inductive OutMsg where
  | text (s : String)
  | scanResultJson (r : ScanResult)
deriving DecidableEq, Repr

/-- Outcome of parsing the staged bytes as the outer streamed archive:
`fault` stands for `tarfile.ReadError`, `UnicodeDecodeError` or
`tarfile.InvalidHeaderError` raised anywhere in the extraction block
(lines 92-127); `ok` for a successful extraction pass. -/
inductive ParseOutcome where
  | fault
  | ok
deriving DecidableEq, Repr

/-- Fragment of CPython `tarfile.open(mode='r|*')` semantics: an empty
stream always raises `ReadError` ("empty file") — there is no byte to
sniff a compression method from nor to begin a header block.  Nonempty
streams are classified by the abstract parameter `parse`. -/
def outerParse (parse : List Nat → ParseOutcome) (data : List Nat) : ParseOutcome :=
  if data.isEmpty then .fault else parse data

/-- `_build_scan_result_response` (component.py lines 163-175): builds the
`ScanResult` from the two fields. -/
def _build_scan_result_response (successful : Bool) (message : String) : ScanResult :=
  { successful := successful, message := message }

/-- Observable trace of one session of `Component.on_websocket`. -/
structure SessionTrace where
  /-- number of payload messages pulled via `ws.receive_data()` -/
  chunksConsumed : Nat
  /-- bytes written to the staging `NamedTemporaryFile` -/
  staged : List Nat
  /-- close code passed to `ws.close`, if any -/
  close : Option CloseCode
  /-- text messages sent at the end of a successful session -/
  sent : List OutMsg
  /-- the session entered the payload-receiving phase (line 74 onwards) -/
  reachedReceiving : Bool
  /-- the session entered the scan phase (line 134 onwards) -/
  reachedScan : Bool
deriving DecidableEq, Repr

/-- `Component.on_websocket` (component.py lines 42-160).
Inputs: `parse` classifies nonempty staged payloads as outer archives;
`metaMsg` / `cfgMsg` are `none` when decoding the corresponding control
message raises `json.JSONDecodeError` or `dacite.MissingValueError`
(the exceptions caught at line 60); `chunks` are the payload messages
the connection can deliver; `proc` is the completed scan subprocess. -/
def onWebsocket (parse : List Nat → ParseOutcome)
    (metaMsg : Option Metadata) (cfgMsg : Option WSConfig)
    (chunks : List (List Nat)) (proc : ScanProc) : SessionTrace :=
  match metaMsg with
  | none => ⟨0, [], some .contractViolation, [], false, false⟩
  | some meta =>
    match cfgMsg with
    | none => ⟨0, [], some .contractViolation, [], false, false⟩
    | some _cfg =>
      if meta.chunkSize > meta.length then
        ⟨0, [], some .chunkSizeTooBig, [], false, false⟩
      else
        match recvLoop meta.length chunks [] 0 with
        | none =>
          -- peer disconnected mid-receive: WebSocketDisconnected, silent return
          ⟨chunks.length, chunks.flatten, none, [], true, false⟩
        | some (staged, used) =>
          match outerParse parse staged with
          | .fault => ⟨used, staged, some .binaryCorrupted, [], true, false⟩
          | .ok =>
            let agentLog :=
              if proc.returncode == 0 then proc.stdout
              else proc.stderr ++ proc.stdout
            let res := _build_scan_result_response
              (if proc.returncode == 0 then true else false) agentLog
            ⟨used, staged, none,
              [OutMsg.text (toString proc.returncode), OutMsg.scanResultJson res],
              true, true⟩

/-! ## Extraction target paths (component.py lines 95-97, 108-112)

`f.extract(tar_info, path=tmp_dir, set_attrs=False)` computes its target
as `os.path.join(path, tarinfo.name)` (CPython `TarFile.extract` →
`TarFile._extract_member`) and performs no rejection or rewriting of
member names containing `..` components or leading `/`. -/

/-- CPython `posixpath.join(a, b)` for two operands: if `b` starts with
the separator the result is `b` alone; otherwise `b` is appended to `a`,
inserting a separator unless `a` is empty or already ends with one. -/
def posixJoin (a b : List Char) : List Char :=
  if b.head? = some '/' then b
  else if a = [] ∨ a.getLast? = some '/' then a ++ b
  else a ++ '/' :: b

/-- Target path computed by `tarfile.extract` for a member named `name`
extracted with `path=destDir`: the bare join, with no sanitization. -/
def extractTarget (destDir name : List Char) : List Char :=
  posixJoin destDir name

/-- Split a path on `/` into components. -/
def splitSlash : List Char → List (List Char)
  | [] => [[]]
  | '/' :: rest => [] :: splitSlash rest
  | c :: rest =>
    match splitSlash rest with
    | [] => [[c]]
    | g :: gs => (c :: g) :: gs

/-- Filesystem resolution of an absolute path's components: empty and `.`
components are dropped, `..` pops the last kept component (at the root it
stays at the root). -/
def resolveComps : List (List Char) → List (List Char) → List (List Char)
  | stack, [] => stack.reverse
  | stack, c :: rest =>
    if c = [] ∨ c = ['.'] then resolveComps stack rest
    else if c = ['.', '.'] then resolveComps stack.tail rest
    else resolveComps (c :: stack) rest

/-- Resolved component list of a path. -/
def resolvePath (p : List Char) : List (List Char) :=
  resolveComps [] (splitSlash p)

/-- A target lies inside a directory when the directory's resolved
components are an initial segment of the target's. -/
def isInsideDir (dir target : List Char) : Bool :=
  List.isPrefixOf (resolvePath dir) (resolvePath target)

/-! ## Inner-archive expansion (component.py lines 100-121)

`for file in os.listdir(tmp_dir): if file.endswith('.tar'): ... extract
into os.path.join(tmp_dir, file.replace('.tar', '')) ...;
os.remove(os.path.join(tmp_dir, file))`. -/

/-- `file.endswith('.tar')`. -/
def endsWithTar (s : List Char) : Bool :=
  List.isSuffixOf ['.', 't', 'a', 'r'] s

/-- CPython `str.replace('.tar', '')`: scan left to right; at each
position where `.tar` occurs, drop it and continue after it (occurrences
do not overlap); otherwise keep the character. -/
def stripTarAll : List Char → List Char
  | '.' :: 't' :: 'a' :: 'r' :: rest => stripTarAll rest
  | c :: rest => c :: stripTarAll rest
  | [] => []

/-- The directory-naming rule as the spec words it: strip only the
trailing `.tar` suffix, leaving the rest of the name unchanged. -/
def stripTrailingTarSpec (s : List Char) : List Char :=
  if endsWithTar s then s.take (s.length - 4) else s

/-- Top-level pass over the extracted tree (listdir snapshot): every name
ending in `.tar` is expanded into a directory named
`file.replace('.tar', '')` and the file itself removed; other names stay.
Returns (remaining top-level files, created inner directories). -/
def processTopLevel : List (List Char) → List (List Char) × List (List Char)
  | [] => ([], [])
  | f :: rest =>
    let r := processTopLevel rest
    if endsWithTar f then (r.1, stripTarAll f :: r.2) else (f :: r.1, r.2)

/-! ## Inner extraction loop fault handling (component.py lines 106-120)

The `while tar_info := f.next(): f.extract(...)` loop over one inner
archive is wrapped as a whole in `try ... except (tarfile.StreamError,
KeyError)`: the first such fault terminates the loop (the except clause
is outside it), logs a warning and is swallowed; any other exception
propagates. -/

/-- Per-entry outcome of `f.extract` on one inner-archive entry. -/
inductive EntryFault where
  /-- entry extracts cleanly -/
  | ok
  /-- `tarfile.StreamError` (duplicate-entry conflict, bpo-12800) -/
  | streamError
  /-- `KeyError` (symlink entry whose `linkname` is absent) -/
  | keyError
  /-- any other exception -/
  | other
deriving DecidableEq, Repr

/-- Result of extracting one inner archive. -/
inductive InnerResult where
  /-- loop ran to the end; all entries extracted -/
  | completed (extracted : List Nat)
  /-- a `StreamError`/`KeyError` was caught outside the loop: a warning is
  logged, the loop does not resume, the session proceeds -/
  | recovered (extracted : List Nat) (f : EntryFault)
  /-- some other exception propagates out of the inner block -/
  | aborted (extracted : List Nat)
deriving DecidableEq, Repr

/-- The inner extraction loop: entries are `(identifier, fault)` pairs in
stream order; `acc` collects extracted identifiers in reverse. -/
def extractInnerLoop : List (Nat × EntryFault) → List Nat → InnerResult
  | [], acc => .completed acc.reverse
  | (i, .ok) :: rest, acc => extractInnerLoop rest (i :: acc)
  | (_, .streamError) :: _, acc => .recovered acc.reverse .streamError
  | (_, .keyError) :: _, acc => .recovered acc.reverse .keyError
  | (_, .other) :: _, acc => .aborted acc.reverse

/-- Identifiers of the longest clean prefix of the entry stream. -/
def okPrefixIds (entries : List (Nat × EntryFault)) : List Nat :=
  (entries.takeWhile (fun e => e.2 == EntryFault.ok)).map Prod.fst

/-! ## Agent binary cache (util.py lines 39-98) -/

/-- Exceptions relevant to `update_or_download_agent`'s handler. -/
inductive Exc where
  | runtimeError
  | httpError
deriving DecidableEq, Repr

/-- Outcome of the HTTP download inside `pull_latest_wss_agent`. -/
inductive FetchOutcome where
  | success
  | failure
deriving DecidableEq, Repr

/-- `pull_latest_wss_agent` (util.py lines 76-98): on success the agent is
moved into place; on any failure the temp file is unlinked and
`RuntimeError('error pulling wss agent')` is raised — whatever the
original exception (including `requests.exceptions.HTTPError` from
`raise_for_status`, caught by the blanket `except Exception`). -/
def pull_latest_wss_agent (download : FetchOutcome) : Except Exc Unit :=
  match download with
  | .success => .ok ()
  | .failure => .error .runtimeError

/-- What `update_or_download_agent` did before returning. -/
inductive UpdateAction where
  /-- file absent: downloaded synchronously before returning -/
  | fetchedSync
  /-- file stale: daemon refresh thread started, returned immediately -/
  | backgroundRefresh
  /-- file fresh: returned immediately, no fetch -/
  | useExisting
  /-- `except requests.exceptions.HTTPError` branch: failure logged,
  current file kept -/
  | keptCurrent
deriving DecidableEq, Repr

/-- `datetime.timedelta(hours=24)` in seconds. -/
def freshnessSeconds : Nat := 24 * 60 * 60

/-- `update_or_download_agent` (util.py lines 39-62).  `present` is
`os.path.isfile(paths.wss_agent_path)`; `mtime`/`now` are Unix seconds
(`modification_date < now - timedelta(hours=24)` ⟺
`mtime + freshnessSeconds < now`); `syncDownload` is the outcome the
blocking download would have, `bgDownload` the outcome the daemon-thread
download would have.  Returns the caller-visible result (the raised
exception, if any, or the action taken) paired with the outcome of the
detached background thread (`none` when no thread is started); the
thread's outcome never reaches the caller. -/
def update_or_download_agent (present : Bool) (mtime now : Nat)
    (syncDownload bgDownload : FetchOutcome) :
    Except Exc UpdateAction × Option (Except Exc Unit) :=
  if present then
    if mtime + freshnessSeconds < now then
      (.ok .backgroundRefresh, some (pull_latest_wss_agent bgDownload))
    else
      (.ok .useExisting, none)
  else
    match pull_latest_wss_agent syncDownload with
    | .ok _ => (.ok .fetchedSync, none)
    | .error .httpError => (.ok .keptCurrent, none)
    | .error e => (.error e, none)

/-! ## Concrete fixtures used by witnesses and counterexamples -/

/-- Outer-archive classifier that always reports a fault. -/
def parse0 : List Nat → ParseOutcome := fun _ => ParseOutcome.fault

/-- Outer-archive classifier that accepts every nonempty payload. -/
def parseOk0 : List Nat → ParseOutcome := fun _ => ParseOutcome.ok

/-- A concrete valid `WSConfig`. -/
def cfg0 : WSConfig := ⟨"k", "u", "w", "p", "n", "e"⟩

/-- A concrete completed scan subprocess. -/
def proc0 : ScanProc := ⟨0, "out", "err"⟩

/-! ## Helper lemmas -/

/-- When `recvLoop` terminates normally, the staged bytes number at least
`L` and are the concatenation of the consumed prefix of the chunks
appended to the initial accumulator. -/
theorem recvLoop_sound (L : Nat) (chunks : List (List Nat)) :
    ∀ (accum : List Nat) (u used : Nat) (staged : List Nat),
      recvLoop L chunks accum u = some (staged, used) →
      L ≤ staged.length ∧ ∃ k, staged = accum ++ (List.take k chunks).flatten := by
  induction chunks with
  | nil =>
    intro accum u used staged h
    by_cases hl : accum.length < L
    · simp [recvLoop, hl] at h
    · simp [recvLoop, hl] at h
      obtain ⟨h1, _⟩ := h
      subst h1
      exact ⟨Nat.le_of_not_lt hl, 0, by simp⟩
  | cons c rest ih =>
    intro accum u used staged h
    by_cases hl : accum.length < L
    · simp only [recvLoop, if_pos hl] at h
      obtain ⟨hlen, k, hst⟩ := ih (accum ++ c) (u + 1) used staged h
      exact ⟨hlen, k + 1, by simp [hst, List.take_succ_cons, List.flatten_cons,
        List.append_assoc]⟩
    · simp [recvLoop, hl] at h
      obtain ⟨h1, _⟩ := h
      subst h1
      exact ⟨Nat.le_of_not_lt hl, 0, by simp⟩

/-! ## Claims -/

/-- C2 counterexample: with declared `totalLength = 1` and a single
delivered chunk of 2 bytes, the receive loop terminates having written 2
bytes to the staging file, not exactly `totalLength = 1` as the claim
states. -/
theorem C2_counterexample :
    recvLoop 1 [[7, 7]] [] 0 = some ([7, 7], 1) ∧ ([7, 7] : List Nat).length ≠ 1 := by
  decide

/-- C2 (amended): when the receive loop terminates before extraction
begins, the number of bytes written to the staging file is the total
length of the consumed prefix of the delivered chunks, and is at least
`totalLength`; it exceeds `totalLength` exactly when the final chunk
carries the received total past it (each chunk is written in full). -/
theorem C2_staged_bytes_at_least_total_length
    (L : Nat) (chunks : List (List Nat)) (staged : List Nat) (used : Nat)
    (h : recvLoop L chunks [] 0 = some (staged, used)) :
    L ≤ staged.length ∧ ∃ k, staged = (List.take k chunks).flatten := by
  obtain ⟨h1, k, h2⟩ := recvLoop_sound L chunks [] 0 used staged h
  exact ⟨h1, k, by simpa using h2⟩

theorem C2_staged_witness :
    1 ≤ ([7, 7] : List Nat).length
    ∧ ∃ k, ([7, 7] : List Nat) = (List.take k [[7, 7]]).flatten :=
  C2_staged_bytes_at_least_total_length 1 [[7, 7]] [7, 7] 1 (by decide)

/-- C5: when `chunkSize > totalLength` the session closes with
`CHUNK_SIZE_TOO_BIG` immediately after both control messages are parsed
— no payload chunk is consumed, nothing is staged, no later phase is
entered; when `chunkSize ≤ totalLength` the session enters the receiving
phase and never closes with that code. -/
theorem C5_chunk_size_check (parse : List Nat → ParseOutcome) (m : Metadata) (c : WSConfig)
    (chunks : List (List Nat)) (proc : ScanProc) :
    (m.chunkSize > m.length →
      onWebsocket parse (some m) (some c) chunks proc =
        ⟨0, [], some .chunkSizeTooBig, [], false, false⟩)
    ∧ (m.chunkSize ≤ m.length →
      (onWebsocket parse (some m) (some c) chunks proc).reachedReceiving = true
      ∧ (onWebsocket parse (some m) (some c) chunks proc).close ≠ some .chunkSizeTooBig) := by
  constructor
  · intro h
    simp [onWebsocket, h]
  · intro h
    have h' : ¬ m.chunkSize > m.length := Nat.not_lt.mpr h
    simp only [onWebsocket, h', if_false]
    rcases hr : recvLoop m.length chunks [] 0 with _ | ⟨staged, used⟩
    · simp
    · rcases hp : outerParse parse staged with _ | _ <;> simp [hp]

theorem C5_witness :
    onWebsocket parse0 (some ⟨1, 2⟩) (some cfg0) [] proc0 =
      ⟨0, [], some .chunkSizeTooBig, [], false, false⟩
    ∧ (onWebsocket parse0 (some ⟨2, 1⟩) (some cfg0) [[5, 5]] proc0).reachedReceiving = true :=
  ⟨(C5_chunk_size_check parse0 ⟨1, 2⟩ cfg0 [] proc0).1 (by decide),
   ((C5_chunk_size_check parse0 ⟨2, 1⟩ cfg0 [[5, 5]] proc0).2 (by decide)).1⟩

/-- C9: when either control message fails to decode (malformed JSON or a
missing required field), the session closes with `CONTRACT_VIOLATION`
having consumed no payload chunk, staged no byte, sent no message, and
entered no later phase. -/
theorem C9_contract_violation (parse : List Nat → ParseOutcome)
    (metaMsg : Option Metadata) (cfgMsg : Option WSConfig)
    (chunks : List (List Nat)) (proc : ScanProc)
    (h : metaMsg = none ∨ cfgMsg = none) :
    onWebsocket parse metaMsg cfgMsg chunks proc =
      ⟨0, [], some .contractViolation, [], false, false⟩ := by
  rcases h with h | h
  · subst h
    simp [onWebsocket]
  · subst h
    cases metaMsg <;> simp [onWebsocket]

theorem C9_witness :
    onWebsocket parse0 none (some cfg0) [[5]] proc0 =
      ⟨0, [], some .contractViolation, [], false, false⟩ :=
  C9_contract_violation parse0 none (some cfg0) [[5]] proc0 (Or.inl rfl)

/-- C10: with metadata `totalLength = 0, chunkSize = 0` the structural
check passes, the receive loop requests no payload message (zero chunks
consumed), and the session always closes with `BINARY_CORRUPTED`: the
empty staged file is never a parseable archive stream. -/
theorem C10_zero_length (parse : List Nat → ParseOutcome) (c : WSConfig)
    (chunks : List (List Nat)) (proc : ScanProc) :
    onWebsocket parse (some ⟨0, 0⟩) (some c) chunks proc =
      ⟨0, [], some .binaryCorrupted, [], true, false⟩ := by
  cases chunks <;> simp [onWebsocket, recvLoop, outerParse]

/-- C6 counterexample: a 2-byte garbage chunk against declared
`totalLength = 1` makes the session close with `BINARY_CORRUPTED` after
2 bytes have been received — not after exactly `totalLength = 1` bytes
as the claim states. -/
theorem C6_counterexample :
    (onWebsocket parse0 (some ⟨1, 1⟩) (some cfg0) [[9, 9]] proc0).close =
      some CloseCode.binaryCorrupted
    ∧ (onWebsocket parse0 (some ⟨1, 1⟩) (some cfg0) [[9, 9]] proc0).staged.length = 2
    ∧ (2 : Nat) ≠ 1 := by
  decide

/-- C6 (amended): for every outer payload that is not a valid archive
stream, the session closes with `BINARY_CORRUPTED`, and only after the
receive loop has terminated — at which point at least `totalLength`
bytes (exactly `totalLength` only when the final chunk does not
overshoot) have been received; the close never happens before the full
declared length has been consumed. -/
theorem C6_binary_corrupted_after_full_receive (parse : List Nat → ParseOutcome)
    (m : Metadata) (c : WSConfig) (chunks : List (List Nat)) (proc : ScanProc)
    (staged : List Nat) (used : Nat)
    (hm : m.chunkSize ≤ m.length)
    (hr : recvLoop m.length chunks [] 0 = some (staged, used))
    (hp : outerParse parse staged = .fault) :
    onWebsocket parse (some m) (some c) chunks proc =
      ⟨used, staged, some .binaryCorrupted, [], true, false⟩
    ∧ m.length ≤ staged.length := by
  have h' : ¬ m.chunkSize > m.length := Nat.not_lt.mpr hm
  exact ⟨by simp [onWebsocket, h', hr, hp],
    (recvLoop_sound m.length chunks [] 0 used staged hr).1⟩

theorem C6_witness :
    onWebsocket parse0 (some ⟨1, 1⟩) (some cfg0) [[9, 9]] proc0 =
      ⟨1, [9, 9], some .binaryCorrupted, [], true, false⟩
    ∧ (1 : Nat) ≤ ([9, 9] : List Nat).length :=
  C6_binary_corrupted_after_full_receive parse0 ⟨1, 1⟩ cfg0 [[9, 9]] proc0 [9, 9] 1
    (by decide) (by decide) (by decide)

/-- C8: a session that completes its scan sends first a text message
holding the tool's exit code as a decimal string and then the
JSON-encoded `ScanResult` whose `successful` field is true exactly when
the exit code is 0 and whose `message` is the captured stdout alone on
exit code 0 and stderr followed by stdout otherwise. -/
theorem C8_response_messages (parse : List Nat → ParseOutcome) (m : Metadata)
    (c : WSConfig) (chunks : List (List Nat)) (proc : ScanProc)
    (staged : List Nat) (used : Nat)
    (hm : m.chunkSize ≤ m.length)
    (hr : recvLoop m.length chunks [] 0 = some (staged, used))
    (hp : outerParse parse staged = .ok) :
    ∃ r : ScanResult,
      (onWebsocket parse (some m) (some c) chunks proc).sent =
        [OutMsg.text (toString proc.returncode), OutMsg.scanResultJson r]
      ∧ (r.successful = true ↔ proc.returncode = 0)
      ∧ r.message =
          (if proc.returncode = 0 then proc.stdout else proc.stderr ++ proc.stdout) := by
  have h' : ¬ m.chunkSize > m.length := Nat.not_lt.mpr hm
  refine ⟨_build_scan_result_response
      (if proc.returncode == 0 then true else false)
      (if proc.returncode == 0 then proc.stdout else proc.stderr ++ proc.stdout),
    ?_, ?_, ?_⟩
  · simp [onWebsocket, h', hr, hp]
  · by_cases h0 : proc.returncode = 0 <;> simp [_build_scan_result_response, h0]
  · by_cases h0 : proc.returncode = 0 <;> simp [_build_scan_result_response, h0]

theorem C8_witness :
    ∃ r : ScanResult,
      (onWebsocket parseOk0 (some ⟨1, 1⟩) (some cfg0) [[7, 7]] proc0).sent =
        [OutMsg.text (toString proc0.returncode), OutMsg.scanResultJson r]
      ∧ (r.successful = true ↔ proc0.returncode = 0)
      ∧ r.message =
          (if proc0.returncode = 0 then proc0.stdout else proc0.stderr ++ proc0.stdout) :=
  C8_response_messages parseOk0 ⟨1, 1⟩ cfg0 [[7, 7]] proc0 [7, 7] 1
    (by decide) (by decide) (by decide)

/-- C1: the extraction target computed by `tarfile.extract` for a member
of the session's archive is the unsanitized `os.path.join` of the
scratch directory and the member name; a name with a `..` component
(and likewise an absolute name, which discards the scratch directory
entirely) resolves outside the scratch directory and is not rejected. -/
theorem C1_path_traversal_not_prevented :
    extractTarget "/tmp/scratch".toList "../evil".toList =
      "/tmp/scratch/../evil".toList
    ∧ isInsideDir "/tmp/scratch".toList
        (extractTarget "/tmp/scratch".toList "../evil".toList) = false
    ∧ extractTarget "/tmp/scratch".toList "/etc/evil".toList = "/etc/evil".toList
    ∧ isInsideDir "/tmp/scratch".toList
        (extractTarget "/tmp/scratch".toList "/etc/evil".toList) = false := by
  decide

/-- C3 counterexample: for the top-level entry `a.tarb.tar` the code
creates a directory named `ab` (`str.replace` removes every occurrence
of `.tar`), not `a.tarb` as the claim (only the trailing suffix removed)
requires. -/
theorem C3_counterexample :
    (processTopLevel ["a.tarb.tar".toList]).2 = ["ab".toList]
    ∧ "ab".toList ≠ stripTrailingTarSpec "a.tarb.tar".toList := by
  decide

/-- C3 (amended): every top-level entry of the extracted tree whose name
ends in `.tar` is expanded into a directory named by removing every
occurrence of `.tar` from the entry's name (Python
`str.replace('.tar', '')`, not only the trailing suffix), and the
original inner-archive file is deleted, leaving zero residual `.tar`
files at the top level. -/
theorem C3_inner_archive_expansion (files : List (List Char)) :
    (∀ f ∈ files, endsWithTar f = true →
      stripTarAll f ∈ (processTopLevel files).2 ∧ f ∉ (processTopLevel files).1)
    ∧ (∀ g ∈ (processTopLevel files).1, endsWithTar g = false) := by
  induction files with
  | nil =>
    exact ⟨fun f hf => absurd hf (List.not_mem_nil f),
      fun g hg => absurd hg (by simp [processTopLevel])⟩
  | cons f rest ih =>
    by_cases hf : endsWithTar f
    · constructor
      · intro x hx hxtar
        rcases List.mem_cons.mp hx with h | h
        · subst h
          refine ⟨by simp [processTopLevel, hf], ?_⟩
          intro hmem
          simp only [processTopLevel, hf, if_pos] at hmem
          exact absurd hxtar (by simp [ih.2 x hmem])
        · have hx' := ih.1 x h hxtar
          refine ⟨?_, ?_⟩
          · simp only [processTopLevel, hf, if_pos]
            exact List.mem_cons_of_mem _ hx'.1
          · intro hmem
            simp only [processTopLevel, hf, if_pos] at hmem
            exact hx'.2 hmem
      · intro g hg
        simp only [processTopLevel, hf, if_pos] at hg
        exact ih.2 g hg
    · have hf' : endsWithTar f = false := Bool.eq_false_iff.mpr hf
      constructor
      · intro x hx hxtar
        rcases List.mem_cons.mp hx with h | h
        · subst h
          exact absurd hxtar (by simp [hf'])
        · have hx' := ih.1 x h hxtar
          refine ⟨?_, ?_⟩
          · simpa only [processTopLevel, hf', if_neg, Bool.false_eq_true,
              ite_false] using hx'.1
          · intro hmem
            simp only [processTopLevel, hf', Bool.false_eq_true, ite_false] at hmem
            rcases List.mem_cons.mp hmem with h1 | h1
            · subst h1
              exact absurd hxtar (by simp [hf'])
            · exact hx'.2 h1
      · intro g hg
        simp only [processTopLevel, hf', Bool.false_eq_true, ite_false] at hg
        rcases List.mem_cons.mp hg with h1 | h1
        · subst h1
          exact hf'
        · exact ih.2 g h1

theorem C3_witness :
    stripTarAll "a.tarb.tar".toList ∈ (processTopLevel ["a.tarb.tar".toList]).2
    ∧ "a.tarb.tar".toList ∉ (processTopLevel ["a.tarb.tar".toList]).1 :=
  (C3_inner_archive_expansion ["a.tarb.tar".toList]).1 "a.tarb.tar".toList
    (List.mem_singleton.mpr rfl) (by decide)

/-- C4 counterexample: an inner archive whose entry stream is
`[clean, KeyError, clean]` extracts only the first entry — the entry
after the faulty one is not extracted, contradicting the claim that all
other entries, including later ones, are still extracted. -/
theorem C4_counterexample :
    extractInnerLoop [(0, EntryFault.ok), (1, EntryFault.keyError), (2, EntryFault.ok)] []
      = InnerResult.recovered [0] EntryFault.keyError
    ∧ (2 : Nat) ∉ ([0] : List Nat) := by
  decide

/-- With no non-recoverable entry in the stream, the inner loop extracts
exactly the clean prefix of the entries and either completes or is
stopped by a caught `StreamError`/`KeyError`. -/
theorem extractInnerLoop_no_other (entries : List (Nat × EntryFault)) :
    ∀ acc : List Nat,
      (∀ e ∈ entries, e.2 ≠ EntryFault.other) →
      extractInnerLoop entries acc = .completed (acc.reverse ++ okPrefixIds entries)
      ∨ ∃ f, extractInnerLoop entries acc = .recovered (acc.reverse ++ okPrefixIds entries) f
          ∧ (f = EntryFault.streamError ∨ f = EntryFault.keyError) := by
  induction entries with
  | nil =>
    intro acc _
    left
    simp [extractInnerLoop, okPrefixIds]
  | cons e rest ih =>
    intro acc h
    obtain ⟨i, f⟩ := e
    cases f with
    | ok =>
      have hrec := ih (i :: acc) (fun x hx => h x (List.mem_cons_of_mem _ hx))
      have hok : okPrefixIds ((i, EntryFault.ok) :: rest) = i :: okPrefixIds rest := by
        simp [okPrefixIds, List.takeWhile]
      have hacc : (i :: acc).reverse ++ okPrefixIds rest
          = acc.reverse ++ okPrefixIds ((i, EntryFault.ok) :: rest) := by
        simp [hok]
      have hstep : extractInnerLoop ((i, EntryFault.ok) :: rest) acc
          = extractInnerLoop rest (i :: acc) := rfl
      rcases hrec with h1 | ⟨g, h1, h2⟩
      · left
        rw [hstep, h1, hacc]
      · right
        exact ⟨g, by rw [hstep, h1, hacc], h2⟩
    | streamError =>
      right
      refine ⟨EntryFault.streamError, ?_, Or.inl rfl⟩
      have hbeq : (EntryFault.streamError == EntryFault.ok) = false := rfl
      simp [extractInnerLoop, okPrefixIds, List.takeWhile, hbeq]
    | keyError =>
      right
      refine ⟨EntryFault.keyError, ?_, Or.inr rfl⟩
      have hbeq : (EntryFault.keyError == EntryFault.ok) = false := rfl
      simp [extractInnerLoop, okPrefixIds, List.takeWhile, hbeq]
    | other =>
      exact absurd rfl (h (i, EntryFault.other) (List.mem_cons_self _ _))

/-- C4 (amended): for every inner archive whose entry stream contains
only clean entries and recoverable faults (`StreamError` duplicates or
`KeyError` missing link targets), the first fault terminates extraction
of that inner archive with a logged warning: exactly the clean prefix of
the entry stream before the fault is extracted (entries after the fault
are not), the fault is swallowed rather than propagated, and ingestion
of the session proceeds to the scan step rather than aborting. -/
theorem C4_recoverable_fault_truncates_inner_extraction
    (entries : List (Nat × EntryFault))
    (h : ∀ e ∈ entries, e.2 ≠ EntryFault.other) :
    (∀ l, extractInnerLoop entries [] ≠ InnerResult.aborted l)
    ∧ (extractInnerLoop entries [] = .completed (okPrefixIds entries)
       ∨ ∃ f, extractInnerLoop entries [] = .recovered (okPrefixIds entries) f
           ∧ (f = EntryFault.streamError ∨ f = EntryFault.keyError)) := by
  have hmain := extractInnerLoop_no_other entries [] h
  constructor
  · intro l hc
    rcases hmain with h1 | ⟨g, h1, _⟩ <;> rw [hc] at h1 <;> simp at h1
  · simpa using hmain

theorem C4_witness :
    (∀ l, extractInnerLoop [(0, EntryFault.ok), (1, EntryFault.keyError), (2, EntryFault.ok)] []
        ≠ InnerResult.aborted l)
    ∧ (extractInnerLoop [(0, EntryFault.ok), (1, EntryFault.keyError), (2, EntryFault.ok)] []
        = .completed (okPrefixIds [(0, EntryFault.ok), (1, EntryFault.keyError), (2, EntryFault.ok)])
       ∨ ∃ f, extractInnerLoop [(0, EntryFault.ok), (1, EntryFault.keyError), (2, EntryFault.ok)] []
           = .recovered (okPrefixIds [(0, EntryFault.ok), (1, EntryFault.keyError), (2, EntryFault.ok)]) f
           ∧ (f = EntryFault.streamError ∨ f = EntryFault.keyError)) :=
  C4_recoverable_fault_truncates_inner_extraction
    [(0, EntryFault.ok), (1, EntryFault.keyError), (2, EntryFault.ok)] (by decide)

/-- C7: `update_or_download_agent` implements the trichotomy: binary
absent → synchronous fetch whose failure (converted to `RuntimeError` by
`pull_latest_wss_agent`, not caught by the `except HTTPError` clause)
propagates to the caller; binary present but older than 24 hours →
background refresh scheduled and immediate return using the existing
file, with the background outcome never reaching the caller (for any
background fetch outcome); binary present and fresh → immediate return
without fetching. -/
theorem C7_agent_cache_trichotomy (mtime now : Nat) (syncD bgD : FetchOutcome) :
    ((update_or_download_agent false mtime now FetchOutcome.success bgD).1 =
      Except.ok UpdateAction.fetchedSync)
    ∧ ((update_or_download_agent false mtime now FetchOutcome.failure bgD).1 =
      Except.error Exc.runtimeError)
    ∧ (mtime + freshnessSeconds < now →
        (update_or_download_agent true mtime now syncD bgD).1 =
          Except.ok UpdateAction.backgroundRefresh)
    ∧ (¬ mtime + freshnessSeconds < now →
        (update_or_download_agent true mtime now syncD bgD).1 =
          Except.ok UpdateAction.useExisting) := by
  refine ⟨rfl, rfl, fun h => ?_, fun h => ?_⟩ <;>
    simp [update_or_download_agent, h]

theorem C7_witness :
    ((update_or_download_agent false 0 0 FetchOutcome.success FetchOutcome.failure).1 =
      Except.ok UpdateAction.fetchedSync)
    ∧ ((update_or_download_agent false 0 0 FetchOutcome.failure FetchOutcome.failure).1 =
      Except.error Exc.runtimeError)
    ∧ ((update_or_download_agent true 0 86401 FetchOutcome.failure FetchOutcome.failure).1 =
      Except.ok UpdateAction.backgroundRefresh)
    ∧ ((update_or_download_agent true 0 10 FetchOutcome.failure FetchOutcome.failure).1 =
      Except.ok UpdateAction.useExisting) :=
  ⟨(C7_agent_cache_trichotomy 0 0 FetchOutcome.failure FetchOutcome.failure).1,
   (C7_agent_cache_trichotomy 0 0 FetchOutcome.failure FetchOutcome.failure).2.1,
   (C7_agent_cache_trichotomy 0 86401 FetchOutcome.failure FetchOutcome.failure).2.2.1
     (by decide),
   (C7_agent_cache_trichotomy 0 10 FetchOutcome.failure FetchOutcome.failure).2.2.2
     (by decide)⟩
